import Mathlib

/-!
# Verification of the dogTrainer repository

Shallow embedding of the three core components of the repository:

* the session controller (`src/main.py`): the 3-state treat-dispensing
  machine `automatic_mode_logic`, the per-cycle observation loop body of
  `main`, and the host-command handler `_on_host_command`;
* the correlation engine (`src/influx_collector.py`): the intent buffer,
  the pose/intent matching scan, and the per-day counters of
  `_collector_loop` / `_inc_counter`;
* the event hub (`src/ws_mediator.py`): registration, routing and the
  UI broadcast fan-out of `ws_handler` / `_broadcast_ui`.

Python floats (wall-clock times, confidences) are modelled as `ℚ`;
JSON values as the inductive `J` below.  Diagnostic `print` calls are
modelled by the `log` output constructors with the fixed prefix of the
message (the dynamic tail of a log line carries no program state).
External I/O (servo, audio playback, the Influx write, socket sends)
is modelled as emitted output tokens; a socket-send outcome, where the
code branches on it, is supplied by an explicit oracle parameter.
-/

namespace DogTrainer

/-- JSON values as produced by `json.loads`. -/
inductive J where
  | null
  | bool (b : Bool)
  | num (q : ℚ)
  | str (s : String)
  | arr (elems : List J)
  | obj (fields : List (String × J))

/-- `d.get(k)` on a parsed JSON dict: first binding of `k`, if `d` is a
dict and has one.  (Python dicts have unique keys, so first = only.) -/
def J.get : J → String → Option J
  | .obj fields, k => fields.lookup k
  | _, _ => none

/-- Python truthiness of a JSON value (`if x:` / `x or y`). -/
def J.truthy : J → Bool
  | .null => false
  | .bool b => b
  | .num q => q ≠ 0
  | .str s => s ≠ ""
  | .arr l => !l.isEmpty
  | .obj l => !l.isEmpty

/-- `x == "lit"` where `x` is a JSON value and `"lit"` a Python string
literal: true iff `x` is that string. -/
def J.eqStr : J → String → Bool
  | .str s, t => s == t
  | _, _ => false

/-- `d.get(k) == "lit"` (missing key gives `None`, which is `≠` any string). -/
def J.getEqStr (d : J) (k lit : String) : Bool :=
  match d.get k with
  | some v => v.eqStr lit
  | none => false

/-- `isinstance(x, dict)`. -/
def J.isDict : J → Bool
  | .obj _ => true
  | _ => false

/-- `d.get(k) or default` — Python `or` falls back on falsy values. -/
def J.getOr (d : J) (k : String) (dflt : J) : J :=
  match d.get k with
  | some v => if v.truthy then v else dflt
  | none => dflt

/-- Read a string field, `''` when absent / null / empty (the only shapes
the device-side producers emit for these fields). -/
def J.getStr (d : J) (k : String) : String :=
  match d.get k with
  | some (.str s) => s
  | _ => ""

/-- Read a numeric field with a falsy-fallback, as in
`data.get('timestamp') or time.time()`: a missing, null or zero
timestamp falls back to the current wall clock `now`.  (The producers
in this repository only ever put floats in `timestamp`.) -/
def J.getTs (d : J) (k : String) (now : ℚ) : ℚ :=
  match d.get k with
  | some (.num q) => if q = 0 then now else q
  | _ => now

/-! Constructor-level reduction lemmas for the `J` accessors, used by
the proofs below. -/

@[simp] theorem J.get_obj (fields : List (String × J)) (k : String) :
    (J.obj fields).get k = fields.lookup k := rfl

@[simp] theorem J.eqStr_str (s t : String) : (J.str s).eqStr t = (s == t) := rfl

@[simp] theorem J.eqStr_null (t : String) : J.null.eqStr t = false := rfl

@[simp] theorem J.truthy_str (s : String) : (J.str s).truthy = decide (s ≠ "") := rfl

@[simp] theorem J.truthy_null : J.null.truthy = false := rfl

@[simp] theorem J.truthy_num (q : ℚ) : (J.num q).truthy = decide (q ≠ 0) := rfl

@[simp] theorem J.truthy_obj (l : List (String × J)) :
    (J.obj l).truthy = !l.isEmpty := rfl

@[simp] theorem J.isDict_obj (l : List (String × J)) : (J.obj l).isDict = true := rfl

end DogTrainer

namespace DogTrainer

/-! ## Strings: lower-casing and substring test

Models Python's `str.lower()` and the `in` operator on the ASCII
pose labels and command texts this system exchanges. -/

/-- `s.lower()` (ASCII case folding, as used on pose labels). -/
def strLower (s : String) : String :=
  String.mk (s.toList.map Char.toLower)

/-- `needle` is a prefix of `hay` (on character lists). -/
def isPrefixOfL : List Char → List Char → Bool
  | [], _ => true
  | _ :: _, [] => false
  | a :: as, b :: bs => a == b && isPrefixOfL as bs

/-- Python `needle in hay` (substring test, on character lists). -/
def containsSubL (needle : List Char) : List Char → Bool
  | [] => isPrefixOfL needle []
  | hay@(_ :: t) => isPrefixOfL needle hay || containsSubL needle t

/-- Python `needle in hay` on strings. -/
def substrOf (needle hay : String) : Bool :=
  containsSubL needle.toList hay.toList

end DogTrainer

namespace DogTrainer

/-! ## Session controller (`src/main.py`)

State dictionary `mode_state` of `main`, and `automatic_mode_logic`. -/

/-- Configuration constants of `src/config.py`. -/
def TREAT_WINDOW : ℚ := 10
/-- `TREAT_COOLDOWN = 5*60`. -/
def TREAT_COOLDOWN : ℚ := 5 * 60

/-- The `stage` values of `mode_state`. -/
inductive Stage where
  | waiting_stand
  | waiting_sit
  | cooldown
deriving DecidableEq, Repr

/-- The `mode_state` dict of `main`.  `treat_disabled` is absent from
the initial dict and read with `.get` (absent ⟷ false). -/
structure ModeState where
  stage : Stage
  last_command_time : ℚ
  cooldown_until : ℚ
  treat_disabled : Bool
deriving DecidableEq, Repr

/-- The initial `mode_state` built in `main`. -/
def initModeState : ModeState :=
  { stage := .waiting_stand, last_command_time := 0, cooldown_until := 0,
    treat_disabled := false }

/-- Observable side effects of the device logic: servo sweep, audio
output (`say` / playback), events sent to the host
(`host_comms.send_event(name, payload)`), per-cycle status
(`host_comms.send_status`), and diagnostic prints. -/
inductive Effect where
  | servoSweep
  | say (text : String)
  | playBase64 (b64 : String)
  | playRecording (file : String)
  | sendEvent (name : J) (payload : J)
  | sendStatus (mode : String) (pose : Option String) (conf : ℚ)
      (stage : Stage) (now : ℚ)
  | log (prefixText : String)

/-- `automatic_mode_logic(mode_state, servo, label)` — the pose `label`
is `none` when the classifier failed (`classify_pose` returned `None`).
Returns the updated state and the effects in program order.

Note the `waiting_sit` branch: the timeout check assigns
`stage = "waiting_stand"` but does NOT return, so control continues to
the override and sit checks of the same invocation. -/
def automatic_mode_logic (st : ModeState) (now : ℚ) (label : Option String) :
    ModeState × List Effect :=
  if st.stage = .waiting_stand then
    if label = some "stand" then
      ({ st with last_command_time := now, stage := .waiting_sit },
       [.say "sit"])
    else (st, [])
  else if st.stage = .waiting_sit then
    -- timeout -> restart (falls through: no return here in the source)
    let st1 := if now - st.last_command_time > TREAT_WINDOW then
                 { st with stage := .waiting_stand } else st
    if st1.treat_disabled then (st1, [])
    else if label = some "sit" then
      ({ st1 with stage := .cooldown, cooldown_until := now + TREAT_COOLDOWN },
       [.servoSweep, .say "Good dog!",
        .sendEvent (.str "treat_given") (.obj [("reason", .str "auto")]),
        .sendEvent (.str "servo_action") (.obj [("action", .str "sweep")])])
    else (st1, [])
  else -- cooldown
    if now > st.cooldown_until then ({ st with stage := .waiting_stand }, [])
    else (st, [])

/-- A possibly-absent pose label as it appears in a JSON payload
(Python `None` serialising to `null`). -/
def optLabelJ : Option String → J
  | some p => .str p
  | none => .null

/-- One iteration of the observation loop of `main`, after frame
capture: either no dog box was detected, or a dog box was detected and
the crop classified to `label` (possibly `none`) with confidence
`conf`. -/
inductive Cycle where
  | noDog
  | dog (label : Option String) (conf : ℚ)

/-- The body of the `while True` loop of `main` (drawing and `waitKey`
omitted: they emit nothing and touch no session state).  `prev` is the
`previous_label` variable; it is only assigned inside the dog-detected
branch.  Returns (new mode_state, new previous_label, effects). -/
def mainCycle (mode : String) (st : ModeState) (prev : Option String)
    (now : ℚ) (c : Cycle) : ModeState × Option String × List Effect :=
  match c with
  | .noDog => (st, prev, [])
  | .dog label conf =>
      let poseLog : List Effect :=
        if (match label with | some s => s != "" | none => false) then
          [.log "[POSE]"] else []
      let transEffs : List Effect :=
        if label ≠ prev then
          [.sendEvent (.str "pose_transition")
            (.obj [("from", optLabelJ prev), ("to", optLabelJ label),
                   ("confidence", .num conf)])]
        else []
      let (st', autoEffs) :=
        if mode = "auto" then automatic_mode_logic st now label else (st, [])
      (st', label,
       poseLog ++ transEffs ++ autoEffs ++
       [.sendStatus mode label conf st'.stage now])

/-- The mutable state `_on_host_command` can reach: the module-global
`config.MODE` and the closed-over `mode_state` dict. -/
structure DeviceState where
  mode : String
  mode_state : ModeState
deriving DecidableEq, Repr

/-- Collaborator oracle for the `audio` branch of `_on_host_command`:
return values of `play_base64` / `play_recording`, and the result of
the candidate-directory glob search over `recordings/` (which returns
the first path named `name.*` with an allowed audio extension, or
nothing).  The branch performs I/O but never touches session state. -/
structure AudioEnv where
  play_base64_ok : String → Bool
  play_recording_ok : String → Bool
  find_recording : String → Option String

/-- `os.path.basename` on POSIX paths: the part after the last `/`. -/
def pyBasename (s : String) : String :=
  ((s.splitOn "/").getLast?).getD ""

/-- The `audio` command branch of `_on_host_command` (lines 107–158 of
`src/main.py`).  The `b64`, `filename`/`file` and `text` fields are
strings whenever present (as all producers in this repository send),
so Python's truthiness test on them is the `≠ ""` test below. -/
def audio_command (env : AudioEnv) (msg : J) : List Effect :=
  let text := msg.getStr "text"
  let b64 := msg.getStr "b64"
  let filename :=
    let f := msg.getStr "filename"
    if f ≠ "" then f else msg.getStr "file"
  if b64 ≠ "" then
    [.playBase64 b64,
     .sendEvent (.str "audio_playback")
       (.obj [("method", .str "b64"),
              ("filename", if filename ≠ "" then .str filename else .null),
              ("ok", .bool (env.play_base64_ok b64))])]
  else if filename ≠ "" then
    [.playRecording filename,
     .sendEvent (.str "audio_playback")
       (.obj [("method", .str "file"), ("filename", .str filename),
              ("ok", .bool (env.play_recording_ok filename))])]
  else if text ≠ "" then
    let name := text.trim
    -- only plain basenames (no path separators) are recording names
    if name ≠ "" && !(name.contains '/') then
      match env.find_recording name with
      | some found_file =>
          [.playRecording found_file,
           .sendEvent (.str "audio_playback")
             (.obj [("method", .str "file"),
                    ("filename", .str (pyBasename found_file)),
                    ("ok", .bool (env.play_recording_ok found_file))]),
           .sendEvent (.str "audio_playback")
             (.obj [("method", .str "tts"), ("text", .str text)])]
      | none =>
          [.say text,
           .sendEvent (.str "audio_playback")
             (.obj [("method", .str "tts"), ("text", .str text)])]
    else
      [.say text,
       .sendEvent (.str "audio_playback")
         (.obj [("method", .str "tts"), ("text", .str text)])]
  else
    [.log "[HOST CMD] audio command missing payload (text/b64/file):"]

/-- `_on_host_command(msg)` of `src/main.py`: dispatch on `msg["cmd"]`.
The handler is registered for parsed-JSON command dicts arriving from
the host connection.  Returns the updated reachable state and the
effects in program order. -/
def on_host_command (env : AudioEnv) (ds : DeviceState) (msg : J) :
    DeviceState × List Effect :=
  match msg.get "cmd" with
  | none => (ds, [.log "[HOST CMD] Invalid command (no 'cmd'):"])
  | some cmd =>
    if !cmd.truthy then (ds, [.log "[HOST CMD] Invalid command (no 'cmd'):"])
    else if cmd.eqStr "set_mode" then
      match msg.get "mode" with
      | some (J.str m) =>
          if m = "auto" ∨ m = "manual" then
            ({ ds with mode := m },
             [.log "[HOST] Mode switched to:",
              .sendEvent (.str "mode_changed") (.obj [("mode", .str m)])])
          else (ds, [.log "[HOST CMD] Invalid mode:"])
      | _ => (ds, [.log "[HOST CMD] Invalid mode:"])
    else if cmd.eqStr "servo" then
      if ((msg.get "action").getD .null).eqStr "sweep" then
        (ds, [.servoSweep,
              .sendEvent (.str "servo_action") (.obj [("action", .str "sweep")]),
              .sendEvent (.str "treat_given") (.obj [("reason", .str "host_command")])])
      else (ds, [.log "[HOST CMD] Unknown servo action:"])
    else if cmd.eqStr "audio" then
      (ds, audio_command env msg)
    else if cmd.eqStr "collector_broadcast" then
      let ev := (msg.get "event").getD .null
      let payload := msg.getOr "payload" (.obj [])
      if ev.truthy then (ds, [.sendEvent ev payload])
      else (ds, [.log "[HOST CMD] collector_broadcast missing event field"])
    else if cmd.eqStr "override_treat" then
      let m := (msg.get "mode").getD .null
      if m.eqStr "disable" then
        ({ ds with mode_state := { ds.mode_state with treat_disabled := true } },
         [.log "[HOST] Treat logic disabled",
          .sendEvent (.str "treat_override") (.obj [("mode", .str "disable")])])
      else if m.eqStr "enable" then
        ({ ds with mode_state := { ds.mode_state with treat_disabled := false } },
         [.log "[HOST] Treat logic enabled",
          .sendEvent (.str "treat_override") (.obj [("mode", .str "enable")])])
      else (ds, [.log "[HOST CMD] Unknown override_treat mode:"])
    else if cmd.eqStr "treat_now" then
      (ds, [.servoSweep, .say "Good dog!",
            .sendEvent (.str "treat_given") (.obj [("reason", .str "treat_now")]),
            .sendEvent (.str "servo_action") (.obj [("action", .str "sweep")])])
    else (ds, [.log "[HOST CMD] Unknown command:"])

end DogTrainer

namespace DogTrainer

/-! ## Correlation engine (`src/influx_collector.py`)

The `_collector_loop` body for one received WebSocket message, with
its closed-over state `recent_audio` (a `deque(maxlen=200)`) and
`daily_counters` (an insertion-ordered dict keyed by the UTC date of
the event timestamp). -/

/-- An entry of `recent_audio`: `dict(ts, text, filename, matched)`. -/
structure Intent where
  ts : ℚ
  text : String
  filename : String
  matched : Bool
deriving DecidableEq, Repr

/-- State of the collector loop.  `recent_audio` is ordered oldest
first (deque append side last).  `daily_counters` maps the UTC day of
a timestamp — represented by its epoch-day number `⌊ts/86400⌋`, which
determines the `'%Y-%m-%d'` key string bijectively — to the pair
(treat count, success count). -/
structure CState where
  recent_audio : List Intent
  daily_counters : List (ℤ × (ℕ × ℕ))
deriving DecidableEq, Repr

/-- The empty state the collector starts from. -/
def CState.empty : CState := ⟨[], []⟩

/-- Outputs of the collector loop: durable writes (`write_event`),
messages sent back over the WebSocket (`ws.send`), diagnostic prints
(fixed prefix). -/
inductive COut where
  | write (env : J)
  | wsSend (msg : J)
  | log (prefixText : String)

/-- `maxlen` of the `recent_audio` deque. -/
def RECENT_AUDIO_MAXLEN : ℕ := 200

/-- `deque.append` with `maxlen`: append at the right, evicting from
the left when full. -/
def pushBounded (buf : List Intent) (e : Intent) : List Intent :=
  let l := buf ++ [e]
  l.drop (l.length - RECENT_AUDIO_MAXLEN)

/-- `_today_key(ts)`: the UTC calendar day of the timestamp, as its
epoch-day number (Unix time has exactly 86400 seconds per UTC day, so
`strftime('%Y-%m-%d')` is constant on, and injective across, the
intervals `[86400*d, 86400*(d+1))`). -/
def dayKey (ts : ℚ) : ℤ := ⌊ts / 86400⌋

/-- The counter kinds of `_inc_counter`. -/
inductive CKind where
  | treat
  | success
deriving DecidableEq

/-- Dict update preserving insertion order; inserts at the end when
the key is absent (Python dict semantics). -/
def countersSet : List (ℤ × (ℕ × ℕ)) → ℤ → (ℕ × ℕ) → List (ℤ × (ℕ × ℕ))
  | [], k, v => [(k, v)]
  | (k', v') :: rest, k, v =>
      if k' = k then (k, v) :: rest else (k', v') :: countersSet rest k v

/-- The `daily_counters` envelope written by `_inc_counter`.  `date`
carries the epoch-day representation of the `'%Y-%m-%d'` key. -/
def dailyEnv (k : ℤ) (treat success : ℕ) (now : ℚ) : J :=
  .obj [("type", .str "event"), ("event", .str "daily_counters"),
        ("timestamp", .num now),
        ("payload", .obj [("date", .num (k : ℚ)),
                          ("treat_count", .num (treat : ℚ)),
                          ("success_count", .num (success : ℚ))])]

/-- `_inc_counter(kind, ts)`: bump today's counter for the day of `ts`
(`ts or time.time()` — a falsy `ts` falls back to the wall clock) and
write a full current-day snapshot. -/
def _inc_counter (cs : List (ℤ × (ℕ × ℕ))) (kind : CKind) (ts now : ℚ) :
    List (ℤ × (ℕ × ℕ)) × List COut :=
  let k := dayKey (if ts = 0 then now else ts)
  let cur := (cs.lookup k).getD (0, 0)
  let cur' := match kind with
    | .treat => (cur.1 + 1, cur.2)
    | .success => (cur.1, cur.2 + 1)
  (countersSet cs k cur', [.write (dailyEnv k cur'.1 cur'.2 now)])

/-- The scan condition of the matching loop in `_collector_loop`: the
intent is not yet matched, not after the pose, not older than the 5 s
window, and the lower-cased target pose occurs in its lower-cased text
or filename.  (`continue`-conditions negated, in source order.) -/
def qualifies (toLower : String) (poseTs : ℚ) (a : Intent) : Bool :=
  !a.matched && !(a.ts > poseTs) && !(poseTs - a.ts > 5) &&
  (substrOf toLower (strLower a.text) || substrOf toLower (strLower a.filename))

/-- The `for a in list(recent_audio)[::-1]` loop: walk the list, mark
the first element satisfying `p` (`a['matched'] = True`) and stop,
returning the updated list and the element found (pre-marking). -/
def markFirst (p : Intent → Bool) : List Intent → List Intent × Option Intent
  | [] => ([], none)
  | a :: rest =>
      if p a then ({ a with matched := true } :: rest, some a)
      else
        let r := markFirst p rest
        (a :: r.1, r.2)

/-- The `command_success` envelope emitted on a match. -/
def successEnv (a : Intent) (toPose : String) (poseTs : ℚ) : J :=
  .obj [("type", .str "event"), ("event", .str "command_success"),
        ("timestamp", .num poseTs),
        ("payload", .obj [("command_text", .str a.text),
                          ("filename", .str a.filename),
                          ("target_pose", .str toPose),
                          ("audio_ts", .num a.ts),
                          ("pose_ts", .num poseTs)])]

/-- The acknowledgement sent back to the device on a match, carrying
the `command_success` payload. -/
def ackMsg (a : Intent) (toPose : String) (poseTs : ℚ) : J :=
  .obj [("cmd", .str "collector_broadcast"),
        ("event", .str "command_success"),
        ("payload", .obj [("command_text", .str a.text),
                          ("filename", .str a.filename),
                          ("target_pose", .str toPose),
                          ("audio_ts", .num a.ts),
                          ("pose_ts", .num poseTs)])]

/-- One iteration of the `async for msg in ws` body of
`_collector_loop`.  `m = none` models a message `json.loads` rejects;
`now` is the wall clock during this iteration.  String-typed payload
fields (`text`, `filename`, `file`, `to`) are read as strings — the
device producers in this repository only ever emit strings or null
there. -/
def collectorStep (s : CState) (now : ℚ) (m : Option J) : CState × List COut :=
  match m with
  | none => (s, [.log "[COLLECTOR] Received non-JSON message, ignoring:"])
  | some data =>
    if data.isDict && data.getEqStr "type" "event" then
      let ev := (data.get "event").getD .null
      let payload := data.getOr "payload" (.obj [])
      let ts := data.getTs "timestamp" now
      -- audio_playback: record the intent for later matching
      let entry : Intent :=
        { ts := ts,
          text := payload.getStr "text",
          filename :=
            (let f := payload.getStr "filename"
             if f ≠ "" then f else payload.getStr "file"),
          matched := false }
      let s1 := if ev.eqStr "audio_playback" then
          { s with recent_audio := pushBounded s.recent_audio entry }
        else s
      -- pose_transition: try to match a recent audio intent
      let r2 : CState × List COut :=
        if ev.eqStr "pose_transition" then
          match payload.get "to" with
          | some (J.str toPose) =>
              if toPose ≠ "" then
                let scan := markFirst (qualifies (strLower toPose) ts)
                              s1.recent_audio.reverse
                match scan.2 with
                | some a =>
                    let inc := _inc_counter s1.daily_counters .success ts now
                    ({ recent_audio := scan.1.reverse, daily_counters := inc.1 },
                     [.write (successEnv a toPose ts),
                      .log "[COLLECTOR] Wrote command_success ->"]
                     ++ inc.2
                     ++ [.wsSend (ackMsg a toPose ts),
                         .log "[COLLECTOR] Sent ack to device to broadcast command_success"])
                | none => (s1, [])
              else (s1, [])
          | _ => (s1, [])
        else (s1, [])
      -- treat_given: bump today's treat counter
      let r3 : CState × List COut :=
        if ev.eqStr "treat_given" then
          let inc := _inc_counter r2.1.daily_counters .treat ts now
          ({ r2.1 with daily_counters := inc.1 }, inc.2)
        else (r2.1, [])
      -- write the original event to Influx
      (r3.1, r2.2 ++ r3.2 ++ [.write data, .log "[COLLECTOR] Wrote event"])
    else
      (s, [.write (.obj [("type", .str "event"), ("event", .str "status"),
                         ("timestamp", .num now), ("payload", data)]),
           .log "[COLLECTOR] Wrote status ->"])

/-- Fold of `collectorStep` over a received message sequence (one
connection lifetime), collecting the outputs in order. -/
def collectorRun (s : CState) : List (ℚ × Option J) → CState × List COut
  | [] => (s, [])
  | (now, m) :: rest =>
      let r := collectorStep s now m
      let r' := collectorRun r.1 rest
      (r'.1, r.2 ++ r'.2)

/-- A `pose_transition` event envelope as the device emits it
(`host_comms.send_event`). -/
def poseTransitionEnv (fromJ : J) (toPose : String) (conf : J) (poseTs : ℚ) : J :=
  .obj [("type", .str "event"), ("event", .str "pose_transition"),
        ("timestamp", .num poseTs),
        ("payload", .obj [("from", fromJ), ("to", .str toPose),
                          ("confidence", conf)])]

/-- Is a collector output the acknowledgement sent back on a
successful intent/pose match?  Exactly one per match, and no other
code path sends on the socket. -/
def isAck : COut → Bool
  | .wsSend msg => msg.getEqStr "cmd" "collector_broadcast"
  | _ => false

/-- Is a collector output the acknowledgement of a match whose pose
timestamp falls on epoch-day `D`? -/
def isAckOnDay (D : ℤ) : COut → Bool
  | .wsSend msg =>
      msg.getEqStr "cmd" "collector_broadcast" &&
      (match (msg.getOr "payload" .null).get "pose_ts" with
       | some (.num q) => dayKey q == D
       | _ => false)
  | _ => false

/-- Is an input-stream element a `treat_given` event envelope whose
effective timestamp falls on epoch-day `D`? -/
def isTreatOnDay (D : ℤ) (p : ℚ × Option J) : Bool :=
  match p.2 with
  | some d => d.isDict && d.getEqStr "type" "event"
      && ((d.get "event").getD .null).eqStr "treat_given"
      && (dayKey (d.getTs "timestamp" p.1) == D)
  | none => false

/-- Is an input-stream element a `daily_counters` event envelope?  The
collector writes its snapshots straight to the durable store and never
sends them over the device socket, so no input it receives has this
shape. -/
def isDailyCountersMsg (p : ℚ × Option J) : Bool :=
  match p.2 with
  | some d => d.isDict && d.getEqStr "type" "event"
      && ((d.get "event").getD .null).eqStr "daily_counters"
  | none => false

/-- Is a collector output the write of a `daily_counters` snapshot
for epoch-day `D`? -/
def isDailyOn (D : ℤ) : COut → Bool
  | .write env =>
      env.getEqStr "event" "daily_counters" &&
      (match (env.getOr "payload" .null).get "date" with
       | some (.num q) => q == (D : ℚ)
       | _ => false)
  | _ => false

/-- A numeric payload field of an event envelope. -/
def payloadNum (env : J) (k : String) : Option ℚ :=
  match (env.getOr "payload" .null).get k with
  | some (.num q) => some q
  | _ => none

/-- The counter pair recorded for epoch-day `D` (`(0,0)` when the day
has no entry yet). -/
def counterAt (cs : List (ℤ × (ℕ × ℕ))) (D : ℤ) : ℕ × ℕ :=
  (cs.lookup D).getD (0, 0)

end DogTrainer

namespace DogTrainer

/-! ## Event hub (`src/ws_mediator.py`)

The module globals `DEVICE` / `UIS` and the per-message body of
`ws_handler`, for TEXT frames.  Connections are identified by opaque
ids; `sendOk c` models whether `await c.send_…` succeeds (a broken
socket raises). -/

/-- Connection identifier (stands for the websocket object). -/
abbrev ConnId := ℕ

/-- The per-connection `role` local of `ws_handler`. -/
inductive Role where
  | device
  | ui
deriving DecidableEq, Repr

/-- The module globals: `DEVICE` (single slot) and `UIS`.  The Python
set is modelled as a duplicate-free list in insertion order (`add`
appends when absent, `discard` removes). -/
structure HubState where
  DEVICE : Option ConnId
  UIS : List ConnId
deriving DecidableEq, Repr

/-- Wire outputs of the hub: a JSON object sent to a connection
(`send_json`, or `send_str(json.dumps(..))`), raw text passed through
(`send_str(text)`), and diagnostic prints. -/
inductive WOut where
  | jsonTo (target : ConnId) (msg : J)
  | rawTo (target : ConnId) (text : String)
  | log (prefixText : String)

/-- `UIS.add(ws)`: a no-op when already present. -/
def addUi (uis : List ConnId) (c : ConnId) : List ConnId :=
  if c ∈ uis then uis else uis ++ [c]

/-- `_broadcast_ui(message)`: iterate a snapshot of `UIS`, send to each
UI, collect the connections whose send raised into `to_remove`, then
discard those from `UIS`.  Delivery outputs are exactly the successful
sends, in set order; the surviving set is the successful senders. -/
def _broadcast_ui (uis : List ConnId) (sendOk : ConnId → Bool) (message : J) :
    List ConnId × List WOut :=
  (uis.filter (fun u => sendOk u),
   (uis.filter (fun u => sendOk u)).map (fun u => WOut.jsonTo u message))

/-- `isinstance(data, dict) and data.get("type") == "register"`. -/
def isRegisterMsg (d : J) : Bool :=
  d.isDict && d.getEqStr "type" "register"

/-- `data.get("role") == r`. -/
def roleIs (d : J) (r : String) : Bool :=
  ((d.get "role").getD .null).eqStr r

/-- A message that actually registers: a register message whose role is
`"device"` or `"ui"` (any other role falls through to routing). -/
def isValidRegistration (d : J) : Bool :=
  isRegisterMsg d && (roleIs d "device" || roleIs d "ui")

/-- The `{error:"not_registered", expect:{...}}` reply of `ws_handler`. -/
def notRegisteredReply : J :=
  .obj [("error", .str "not_registered"),
        ("expect", .obj [("type", .str "register"), ("role", .str "device|ui")])]

/-- One TEXT frame processed by the `async for` body of `ws_handler`.
`conn` is the receiving connection, `role` its current per-connection
role, `raw` the frame text and `parsed` the `json.loads` outcome.
Registration acknowledgements are modelled as unconditional outputs (a
raising ack send terminates the handler, outside one-step scope); the
`detail` field of `failed_to_send_to_device` (the exception text) is
omitted.  Returns (new globals, new role, outputs). -/
def ws_on_text (st : HubState) (conn : ConnId) (role : Option Role)
    (sendOk : ConnId → Bool) (raw : String) (parsed : Option J) :
    HubState × Option Role × List WOut :=
  match parsed with
  | none =>
      -- pass through non-json text to UIs/device depending on role
      match role with
      | some .device =>
          let b := _broadcast_ui st.UIS sendOk
                     (.obj [("type", .str "raw"), ("text", .str raw)])
          ({ st with UIS := b.1 }, role, b.2)
      | some .ui =>
          match st.DEVICE with
          | some d => (st, role, if sendOk d then [.rawTo d raw] else [])
          | none => (st, role, [])
      | none => (st, role, [])
  | some data =>
      if isRegisterMsg data && roleIs data "device" then
        ({ st with DEVICE := some conn }, some .device,
         [.jsonTo conn (.obj [("ok", .bool true), ("role", .str "device")]),
          .log "[MEDIATOR] Device registered"])
      else if isRegisterMsg data && roleIs data "ui" then
        ({ st with UIS := addUi st.UIS conn }, some .ui,
         [.jsonTo conn (.obj [("ok", .bool true), ("role", .str "ui")]),
          .log "[MEDIATOR] UI registered:"])
      else
        match role with
        | some .ui =>
            (match st.DEVICE with
             | some d =>
                 if sendOk d then (st, role, [.jsonTo d data])
                 else (st, role,
                   [.jsonTo conn (.obj [("error", .str "failed_to_send_to_device")])])
             | none =>
                 (st, role, [.jsonTo conn (.obj [("error", .str "no_device_connected")])]))
        | some .device =>
            let b := _broadcast_ui st.UIS sendOk data
            ({ st with UIS := b.1 }, role, b.2)
        | none =>
            (st, role, [.jsonTo conn notRegisteredReply])

/-- The connection a wire output is addressed to, when any. -/
def WOut.target : WOut → Option ConnId
  | .jsonTo t _ => some t
  | .rawTo t _ => some t
  | .log _ => none

/-- The `{"type":"register","role":"device"}` registration message. -/
def deviceRegMsg : J :=
  .obj [("type", .str "register"), ("role", .str "device")]

end DogTrainer

namespace DogTrainer

/-! ## Theorems: session controller -/

/-- C1 (counterexample): in `WaitingSit` with the timeout condition
holding (`now = 11`, `lastCommandTime = 0`, `TREAT_WINDOW = 10`) and
the same observation's label `"sit"`, `automatic_mode_logic` still
dispenses a treat and moves to `Cooldown` instead of returning to
`WaitingStand` without a treat: the timeout assignment does not
preempt the positive-match check, which runs in the same call. -/
theorem timeout_does_not_preempt_sit :
    (11 : ℚ) - 0 > TREAT_WINDOW ∧
    automatic_mode_logic ⟨.waiting_sit, 0, 0, false⟩ 11 (some "sit")
      = (⟨.cooldown, 0, 311, false⟩,
         [.servoSweep, .say "Good dog!",
          .sendEvent (.str "treat_given") (.obj [("reason", .str "auto")]),
          .sendEvent (.str "servo_action") (.obj [("action", .str "sweep")])]) := by
  refine ⟨by norm_num [TREAT_WINDOW], ?_⟩
  norm_num [automatic_mode_logic, TREAT_WINDOW, TREAT_COOLDOWN]
  exact fun h => Stage.noConfusion h

/-- C1 (amended): in `WaitingSit`, the timeout check is evaluated
first, but it does not preempt the positive-match check.  When the
timeout condition holds and the override is off: if the observation's
label is not `"sit"`, the state returns to `WaitingStand` and no treat
is dispensed (in particular for the sequence `[stand@0]` with no
further posture before `t = TREAT_WINDOW + ε`); if the label is
`"sit"`, a treat is still dispensed and the state moves to `Cooldown`. -/
theorem waitingSit_timeout_rules (st : ModeState) (now : ℚ) (label : Option String)
    (hstage : st.stage = .waiting_sit)
    (htimeout : now - st.last_command_time > TREAT_WINDOW)
    (hdis : st.treat_disabled = false) :
    (label ≠ some "sit" →
        automatic_mode_logic st now label = ({ st with stage := .waiting_stand }, [])) ∧
    (label = some "sit" →
        automatic_mode_logic st now label
          = ({ st with stage := .cooldown, cooldown_until := now + TREAT_COOLDOWN },
             [.servoSweep, .say "Good dog!",
              .sendEvent (.str "treat_given") (.obj [("reason", .str "auto")]),
              .sendEvent (.str "servo_action") (.obj [("action", .str "sweep")])])) := by
  unfold automatic_mode_logic
  rw [hstage]
  constructor
  · intro hlab
    simp [htimeout, hdis, hlab]
  · intro hlab
    simp [htimeout, hdis, hlab]

/-- C1 (witness): the sequence `[stand@0]` moves to `WaitingSit`, and a
later step at `t = 10.1 > TREAT_WINDOW` with no sit observed resets to
`WaitingStand` having dispensed nothing. -/
theorem waitingSit_timeout_rules_witness :
    automatic_mode_logic initModeState 0 (some "stand")
      = (⟨.waiting_sit, 0, 0, false⟩, [.say "sit"]) ∧
    ((⟨.waiting_sit, 0, 0, false⟩ : ModeState).stage = .waiting_sit ∧
      (101 / 10 : ℚ) - (⟨.waiting_sit, 0, 0, false⟩ : ModeState).last_command_time
        > TREAT_WINDOW) ∧
    automatic_mode_logic ⟨.waiting_sit, 0, 0, false⟩ (101 / 10) none
      = (⟨.waiting_stand, 0, 0, false⟩, []) := by
  refine ⟨rfl, ⟨rfl, by norm_num [TREAT_WINDOW]⟩, ?_⟩
  have h := (waitingSit_timeout_rules ⟨.waiting_sit, 0, 0, false⟩ (101 / 10) none rfl
      (by norm_num [TREAT_WINDOW]) rfl).1 (by simp)
  simpa using h

/-- C3 (counterexample): `override_treat` with mode `"force"` is an
unknown mode: the handler only logs, the session state (mode, stage,
`last_command_time`, `cooldown_until`, `treat_disabled`) is unchanged,
nothing is dispensed and no event is emitted — the code has no
`forceTreat` override. -/
theorem override_treat_force_rejected :
    on_host_command ⟨fun _ => true, fun _ => true, fun _ => none⟩
        ⟨"auto", ⟨.waiting_sit, 0, 0, false⟩⟩
        (.obj [("cmd", .str "override_treat"), ("mode", .str "force")])
      = (⟨"auto", ⟨.waiting_sit, 0, 0, false⟩⟩,
         [.log "[HOST CMD] Unknown override_treat mode:"]) := rfl

/-- C3 (amended): `override_treat` accepts exactly the modes
`"disable"` and `"enable"` (setting / clearing `treat_disabled` and
emitting `treat_override`); any other mode — `"force"` included — is
logged as unknown and has no effect whatsoever. -/
theorem override_treat_modes (env : AudioEnv) (ds : DeviceState) (m : J)
    (h1 : m.eqStr "disable" = false) (h2 : m.eqStr "enable" = false) :
    on_host_command env ds (.obj [("cmd", .str "override_treat"), ("mode", m)])
      = (ds, [.log "[HOST CMD] Unknown override_treat mode:"]) ∧
    on_host_command env ds (.obj [("cmd", .str "override_treat"), ("mode", .str "disable")])
      = ({ ds with mode_state := { ds.mode_state with treat_disabled := true } },
         [.log "[HOST] Treat logic disabled",
          .sendEvent (.str "treat_override") (.obj [("mode", .str "disable")])]) ∧
    on_host_command env ds (.obj [("cmd", .str "override_treat"), ("mode", .str "enable")])
      = ({ ds with mode_state := { ds.mode_state with treat_disabled := false } },
         [.log "[HOST] Treat logic enabled",
          .sendEvent (.str "treat_override") (.obj [("mode", .str "enable")])]) := by
  refine ⟨?_, rfl, rfl⟩
  simp [on_host_command, List.lookup, h1, h2]

/-- C3 (witness): instantiating the amended rule at mode `"force"`. -/
theorem override_treat_modes_witness :
    (J.str "force").eqStr "disable" = false ∧
    on_host_command ⟨fun _ => true, fun _ => true, fun _ => none⟩
        ⟨"manual", initModeState⟩
        (.obj [("cmd", .str "override_treat"), ("mode", .str "force")])
      = (⟨"manual", initModeState⟩,
         [.log "[HOST CMD] Unknown override_treat mode:"]) :=
  ⟨rfl, (override_treat_modes ⟨fun _ => true, fun _ => true, fun _ => none⟩
      ⟨"manual", initModeState⟩ (.str "force") rfl rfl).1⟩

/-- C4 (counterexample): a cycle in which no dog is detected emits no
event at all — in particular no `pose_transition{from:"stand",
to:null}` — and leaves `previous_label` unchanged, although the claim
requires a transition event when the subject disappears (the label
"becoming null"). -/
theorem noDog_cycle_emits_nothing :
    mainCycle "auto" initModeState (some "stand") 1 .noDog
      = (initModeState, some "stand", []) := rfl

/-- C4 (amended): on every cycle in which a dog is detected, if the
classified label (possibly null, when classification fails) differs
from the previous detected-cycle label, a
`pose_transition{from, to, confidence}` event is emitted, for every
mode and every session state; on a cycle with no dog detected,
however, nothing is emitted and `previous_label` is not updated. -/
theorem pose_transition_emission (mode : String) (st : ModeState)
    (prev : Option String) (now conf : ℚ) (label : Option String)
    (hne : label ≠ prev) :
    Effect.sendEvent (.str "pose_transition")
        (.obj [("from", optLabelJ prev), ("to", optLabelJ label),
               ("confidence", .num conf)])
      ∈ (mainCycle mode st prev now (.dog label conf)).2.2 ∧
    (∀ (mode' : String) (st' : ModeState) (prev' : Option String) (now' : ℚ),
        mainCycle mode' st' prev' now' .noDog = (st', prev', [])) := by
  refine ⟨?_, fun _ _ _ _ => rfl⟩
  simp [mainCycle, hne]

/-- C4 (witness): a manual-mode cycle detecting `"sit"` after `"stand"`
emits the transition event. -/
theorem pose_transition_emission_witness :
    (some "sit" : Option String) ≠ some "stand" ∧
    Effect.sendEvent (.str "pose_transition")
        (.obj [("from", optLabelJ (some "stand")), ("to", optLabelJ (some "sit")),
               ("confidence", .num (9 / 10))])
      ∈ (mainCycle "manual" initModeState (some "stand") 2
           (.dog (some "sit") (9 / 10))).2.2 :=
  ⟨by simp, (pose_transition_emission "manual" initModeState (some "stand") 2 (9 / 10)
      (some "sit") (by simp)).1⟩

/-- C10: handling `treat_now` dispenses a treat (servo sweep and
praise audio) and emits `treat_given{reason:"treat_now"}` followed by
`servo_action{action:"sweep"}`, while leaving every field of the
session state — mode, stage, `last_command_time`, `cooldown_until`,
`treat_disabled` — unchanged; in particular it starts no cooldown. -/
theorem treat_now_preserves_state (env : AudioEnv) (ds : DeviceState) :
    on_host_command env ds (.obj [("cmd", .str "treat_now")])
      = (ds, [.servoSweep, .say "Good dog!",
              .sendEvent (.str "treat_given") (.obj [("reason", .str "treat_now")]),
              .sendEvent (.str "servo_action") (.obj [("action", .str "sweep")])]) := rfl

end DogTrainer

namespace DogTrainer

/-! ## Theorems: event hub -/

/-- A message that is not a valid registration triggers neither of the
two registration branches of `ws_handler`. -/
theorem validRegistration_split (d : J) (h : isValidRegistration d = false) :
    (isRegisterMsg d && roleIs d "device") = false ∧
    (isRegisterMsg d && roleIs d "ui") = false := by
  cases hr : isRegisterMsg d <;>
    cases hd : roleIs d "device" <;>
    cases hu : roleIs d "ui" <;>
    simp_all [isValidRegistration]

/-- C6: registering as device replaces any prior device registration —
after two sequential `register(role:device)` calls from connections
`c1` then `c2`, only `c2` is the addressable device, the UI set (and
hence the openness of `c1`'s connection, which the hub never closes)
is untouched, and a subsequent command from a registered UI `u` is
forwarded to `c2` only: no routing output ever addresses `c1`. -/
theorem single_device_invariant (st : HubState) (c1 c2 u : ConnId)
    (sendOk : ConnId → Bool) (raw : String) (d : J)
    (h12 : c1 ≠ c2) (h1u : c1 ≠ u) (hreg : isValidRegistration d = false) :
    (ws_on_text st c1 none sendOk "" (some deviceRegMsg)).1
        = { st with DEVICE := some c1 } ∧
    (ws_on_text { st with DEVICE := some c1 } c2 none sendOk "" (some deviceRegMsg)).1
        = { st with DEVICE := some c2 } ∧
    (sendOk c2 = true →
        ws_on_text { st with DEVICE := some c2 } u (some .ui) sendOk raw (some d)
          = ({ st with DEVICE := some c2 }, some .ui, [.jsonTo c2 d])) ∧
    (∀ o ∈ (ws_on_text { st with DEVICE := some c2 } u (some .ui) sendOk raw
              (some d)).2.2,
        WOut.target o ≠ some c1) := by
  obtain ⟨hd, hu⟩ := validRegistration_split d hreg
  refine ⟨rfl, rfl, ?_, ?_⟩
  · intro hok
    simp [ws_on_text, hd, hu, hok]
  · by_cases hok : sendOk c2 = true
    · simp [ws_on_text, hd, hu, hok, WOut.target, h12.symm]
    · simp only [Bool.not_eq_true] at hok
      simp [ws_on_text, hd, hu, hok, WOut.target, h1u.symm]

/-- C6 (witness): connections 0 then 1 register as device; a command
from UI 2 is then forwarded to connection 1 only. -/
theorem single_device_invariant_witness :
    ((0 : ConnId) ≠ 1 ∧ (0 : ConnId) ≠ 2 ∧
      isValidRegistration (.obj [("cmd", .str "servo")]) = false) ∧
    (ws_on_text (⟨none, []⟩ : HubState) 0 none (fun _ => true) ""
        (some deviceRegMsg)).1 = ⟨some 0, []⟩ ∧
    (ws_on_text (⟨some 0, []⟩ : HubState) 1 none (fun _ => true) ""
        (some deviceRegMsg)).1 = ⟨some 1, []⟩ ∧
    ws_on_text (⟨some 1, []⟩ : HubState) 2 (some .ui) (fun _ => true) "x"
        (some (.obj [("cmd", .str "servo")]))
      = (⟨some 1, []⟩, some .ui, [.jsonTo 1 (.obj [("cmd", .str "servo")])]) := by
  have h := single_device_invariant ⟨none, []⟩ 0 1 2 (fun _ => true) "x"
      (.obj [("cmd", .str "servo")]) (by decide) (by decide) rfl
  exact ⟨⟨by decide, by decide, rfl⟩, h.1, h.2.1, h.2.2.1 rfl⟩

/-- C8: the UI broadcast fan-out is independent per UI: every UI whose
send succeeds receives the message and stays in the set, a UI whose
send fails is removed from the set, receives nothing, and its failure
does not abort or block delivery to any other UI. -/
theorem broadcast_fanout_isolation (uis : List ConnId) (sendOk : ConnId → Bool)
    (m : J) (u : ConnId) (hu : u ∈ uis) :
    (sendOk u = true →
        WOut.jsonTo u m ∈ (_broadcast_ui uis sendOk m).2 ∧
        u ∈ (_broadcast_ui uis sendOk m).1) ∧
    (sendOk u = false →
        u ∉ (_broadcast_ui uis sendOk m).1 ∧
        ∀ v, WOut.jsonTo v m ∈ (_broadcast_ui uis sendOk m).2 → sendOk v = true) := by
  constructor
  · intro hok
    constructor
    · simp only [_broadcast_ui, List.mem_map]
      exact ⟨u, List.mem_filter.mpr ⟨hu, hok⟩, rfl⟩
    · exact List.mem_filter.mpr ⟨hu, hok⟩
  · intro hfail
    constructor
    · intro hmem
      have := (List.mem_filter.mp hmem).2
      simp [hfail] at this
    · intro v hv
      simp only [_broadcast_ui, List.mem_map] at hv
      obtain ⟨w, hw, hEq⟩ := hv
      cases hEq
      exact (List.mem_filter.mp hw).2

/-- C8 (witness): with registered UIs 1, 2, 3 and the send to UI 2
failing, UIs 1 and 3 still receive the in-flight message and UI 2 is
removed from the set. -/
theorem broadcast_fanout_isolation_witness :
    ((1 : ConnId) ∈ [1, 2, 3] ∧ (3 : ConnId) ∈ [1, 2, 3] ∧
      (2 : ConnId) ∈ [1, 2, 3]) ∧
    WOut.jsonTo 1 .null ∈ (_broadcast_ui [1, 2, 3] (fun c => c != 2) .null).2 ∧
    WOut.jsonTo 3 .null ∈ (_broadcast_ui [1, 2, 3] (fun c => c != 2) .null).2 ∧
    (2 : ConnId) ∉ (_broadcast_ui [1, 2, 3] (fun c => c != 2) .null).1 := by
  refine ⟨⟨by decide, by decide, by decide⟩, ?_, ?_, ?_⟩
  · exact ((broadcast_fanout_isolation [1, 2, 3] (fun c => c != 2) .null 1
      (by decide)).1 rfl).1
  · exact ((broadcast_fanout_isolation [1, 2, 3] (fun c => c != 2) .null 3
      (by decide)).1 rfl).1
  · exact ((broadcast_fanout_isolation [1, 2, 3] (fun c => c != 2) .null 2
      (by decide)).2 rfl).1

/-- C9 (counterexample): a non-JSON first message (`"hello"`, which
`json.loads` rejects) on an unregistered connection is silently
dropped: the hub sends no reply at all — in particular no
`{error:"not_registered"}` — though the connection does remain open
and unregistered. -/
theorem nonjson_first_message_no_reply :
    ws_on_text ⟨none, []⟩ 0 none (fun _ => true) "hello" none
      = (⟨none, []⟩, none, []) ∧
    WOut.jsonTo 0 notRegisteredReply
      ∉ (ws_on_text ⟨none, []⟩ 0 none (fun _ => true) "hello" none).2.2 := by
  refine ⟨rfl, ?_⟩
  show WOut.jsonTo 0 notRegisteredReply ∉ ([] : List WOut)
  exact List.not_mem_nil _

/-- C9 (amended): every *valid-JSON* first message on an unregistered
connection that is not a valid registration gets the reply
`{error:"not_registered", expect:{...}}`, with the connection left
open and unregistered; a first message that is not valid JSON,
however, is ignored without any reply (the connection likewise stays
open and unregistered). -/
theorem unregistered_first_message (st : HubState) (c : ConnId)
    (sendOk : ConnId → Bool) (raw : String) (d : J)
    (hreg : isValidRegistration d = false) :
    ws_on_text st c none sendOk raw (some d)
      = (st, none, [.jsonTo c notRegisteredReply]) ∧
    ws_on_text st c none sendOk raw none = (st, none, []) := by
  obtain ⟨hd, hu⟩ := validRegistration_split d hreg
  exact ⟨by simp [ws_on_text, hd, hu], rfl⟩

/-- C9 (witness): a JSON string (not a dict, so not a registration)
as first message gets the `not_registered` reply. -/
theorem unregistered_first_message_witness :
    isValidRegistration (.str "hi") = false ∧
    ws_on_text (⟨none, []⟩ : HubState) 0 none (fun _ => true) "\"hi\""
        (some (.str "hi"))
      = (⟨none, []⟩, none, [.jsonTo 0 notRegisteredReply]) :=
  ⟨rfl, (unregistered_first_message ⟨none, []⟩ 0 (fun _ => true) "\"hi\""
      (.str "hi") rfl).1⟩

end DogTrainer

namespace DogTrainer

/-! ## Theorems: correlation engine -/

/-- `v == "lit"` holds exactly for that JSON string. -/
@[simp] theorem J.eqStr_iff (v : J) (t : String) :
    v.eqStr t = true ↔ v = .str t := by
  cases v <;> simp [J.eqStr]

/-- `d.get(k) == lit` agrees with comparing the `getD .null` view. -/
theorem J.getEqStr_eq (d : J) (k lit : String) :
    d.getEqStr k lit = ((d.get k).getD .null).eqStr lit := by
  unfold J.getEqStr
  cases d.get k <;> rfl

/-- A qualifying intent is necessarily unmatched. -/
theorem qualifies_not_matched {tl : String} {ts : ℚ} {a : Intent}
    (h : qualifies tl ts a = true) : a.matched = false := by
  simp only [qualifies, Bool.and_eq_true, Bool.not_eq_true'] at h
  exact h.1.1.1

/-- The scan loop leaves the list untouched and finds nothing when no
element satisfies the predicate. -/
theorem markFirst_of_all_false (p : Intent → Bool) (l : List Intent)
    (h : ∀ a ∈ l, p a = false) : markFirst p l = (l, none) := by
  induction l with
  | nil => rfl
  | cons a rest ih =>
      have ha := h a (List.mem_cons_self a rest)
      simp [markFirst, ha, ih fun b hb => h b (List.mem_cons_of_mem a hb)]

/-- The scan loop marks exactly the first satisfying element and stops. -/
theorem markFirst_decomp (p : Intent → Bool) (u : List Intent) (a : Intent)
    (v : List Intent) (hu : ∀ b ∈ u, p b = false) (ha : p a = true) :
    markFirst p (u ++ a :: v)
      = (u ++ { a with matched := true } :: v, some a) := by
  induction u with
  | nil => simp [markFirst, ha]
  | cons b rest ih =>
      have hb := hu b (List.mem_cons_self b rest)
      simp [markFirst, hb, ih fun c hc => hu c (List.mem_cons_of_mem b hc)]

/-- Conversely, a scan either finds nothing (no element satisfies `p`)
or splits the list around the first satisfying element. -/
theorem markFirst_cases (p : Intent → Bool) (l : List Intent) :
    (markFirst p l = (l, none) ∧ ∀ a ∈ l, p a = false) ∨
    (∃ u a v, l = u ++ a :: v ∧ (∀ b ∈ u, p b = false) ∧ p a = true ∧
      markFirst p l = (u ++ { a with matched := true } :: v, some a)) := by
  induction l with
  | nil => exact .inl ⟨rfl, by simp⟩
  | cons a rest ih =>
      by_cases ha : p a = true
      · exact .inr ⟨[], a, rest, rfl, by simp, ha, by simp [markFirst, ha]⟩
      · have ha' : p a = false := by simpa using ha
        rcases ih with ⟨hm, hall⟩ | ⟨u, x, v, hl, hu, hx, hm⟩
        · refine .inl ⟨by simp [markFirst, ha', hm], ?_⟩
          intro b hb
          rcases List.mem_cons.mp hb with rfl | hb
          · exact ha'
          · exact hall b hb
        · subst hl
          refine .inr ⟨a :: u, x, v, by simp, ?_, hx, ?_⟩
          · intro c hc
            rcases List.mem_cons.mp hc with rfl | hc
            · exact ha'
            · exact hu c hc
          · simp [markFirst, ha', hm]

/-- C2: processing `pose_transition{to:P}` with timestamp `poseTs`
scans the intent buffer newest-first, skipping matched intents,
intents stamped after `poseTs` and intents older than `poseTs - 5`
(the `qualifies` predicate, with case-insensitive substring match of
the target pose against text and file reference).  If no buffered
intent qualifies — e.g. an intent at ts 0 against a transition at
ts 5.01 — the buffer is unchanged and only the original event is
written: no `command_success`, no ack.  Otherwise exactly the most
recent qualifying intent `a` (nothing in the newer suffix `l2`
qualifies) is marked matched, scanning stops, and exactly one
`command_success` carrying `a.text`, `a.filename`, the target pose,
`a.ts` and `poseTs` is written, followed by the day-counter snapshot
and the rebroadcast ack. -/
theorem correlation_matching_spec (s : CState) (now poseTs : ℚ) (fromJ conf : J)
    (toPose : String) (hP : toPose ≠ "") (hts : poseTs ≠ 0) :
    ((∀ a ∈ s.recent_audio, qualifies (strLower toPose) poseTs a = false) →
      collectorStep s now (some (poseTransitionEnv fromJ toPose conf poseTs))
        = (s, [.write (poseTransitionEnv fromJ toPose conf poseTs),
               .log "[COLLECTOR] Wrote event"])) ∧
    (∀ l1 a l2, s.recent_audio = l1 ++ a :: l2 →
      qualifies (strLower toPose) poseTs a = true →
      (∀ b ∈ l2, qualifies (strLower toPose) poseTs b = false) →
      collectorStep s now (some (poseTransitionEnv fromJ toPose conf poseTs))
        = ({ recent_audio := l1 ++ { a with matched := true } :: l2,
             daily_counters := (_inc_counter s.daily_counters .success poseTs now).1 },
           [.write (successEnv a toPose poseTs),
            .log "[COLLECTOR] Wrote command_success ->"]
           ++ (_inc_counter s.daily_counters .success poseTs now).2
           ++ [.wsSend (ackMsg a toPose poseTs),
               .log "[COLLECTOR] Sent ack to device to broadcast command_success",
               .write (poseTransitionEnv fromJ toPose conf poseTs),
               .log "[COLLECTOR] Wrote event"])) := by
  constructor
  · intro hnone
    have hm : markFirst (qualifies (strLower toPose) poseTs) s.recent_audio.reverse
        = (s.recent_audio.reverse, none) :=
      markFirst_of_all_false _ _ fun a ha => hnone a (by simpa using ha)
    simp [collectorStep, poseTransitionEnv, J.getEqStr, J.getOr, J.getTs,
      List.lookup, hts, hP, hm]
  · intro l1 a l2 hdecomp hq hl2
    have hm : markFirst (qualifies (strLower toPose) poseTs) s.recent_audio.reverse
        = (l2.reverse ++ { a with matched := true } :: l1.reverse, some a) := by
      rw [hdecomp, List.reverse_append, List.reverse_cons, List.append_assoc,
        List.singleton_append]
      exact markFirst_decomp _ _ _ _ (fun b hb => hl2 b (by simpa using hb)) hq
    simp [collectorStep, poseTransitionEnv, J.getEqStr, J.getOr, J.getTs,
      List.lookup, hts, hP, hm]

/-- C2 (witness): the window boundary — a single buffered intent with
text `"sit"` at ts 0 does not qualify for a matching transition at
ts 5.01 (`5.01 - 0 > 5`), so no `command_success` and no ack are
emitted and the intent stays unmatched. -/
theorem correlation_matching_spec_witness :
    (("sit" : String) ≠ "" ∧ (501 / 100 : ℚ) ≠ 0 ∧
      ∀ a ∈ [(⟨0, "sit", "", false⟩ : Intent)],
        qualifies (strLower "sit") (501 / 100) a = false) ∧
    collectorStep ⟨[⟨0, "sit", "", false⟩], []⟩ (501 / 100)
        (some (poseTransitionEnv (.str "stand") "sit" (.num (9 / 10)) (501 / 100)))
      = (⟨[⟨0, "sit", "", false⟩], []⟩,
         [.write (poseTransitionEnv (.str "stand") "sit" (.num (9 / 10)) (501 / 100)),
          .log "[COLLECTOR] Wrote event"]) := by
  have hq : ∀ a ∈ [(⟨0, "sit", "", false⟩ : Intent)],
      qualifies (strLower "sit") (501 / 100) a = false := by
    intro a ha
    rcases List.mem_singleton.mp ha with rfl
    simp only [qualifies]
    norm_num
  refine ⟨⟨by decide, by norm_num, hq⟩, ?_⟩
  exact (correlation_matching_spec ⟨[⟨0, "sit", "", false⟩], []⟩ (501 / 100)
      (501 / 100) (.str "stand") (.num (9 / 10)) "sit" (by decide)
      (by norm_num)).1 hq

end DogTrainer

namespace DogTrainer

@[simp] theorem isAck_write (env : J) : isAck (.write env) = false := rfl

@[simp] theorem isAck_log (s : String) : isAck (.log s) = false := rfl

@[simp] theorem isAck_ackMsg (a : Intent) (t : String) (q : ℚ) :
    isAck (.wsSend (ackMsg a t q)) = true := rfl

/-- `_inc_counter` emits exactly one durable write (the day snapshot)
and nothing else. -/
theorem _inc_counter_out (cs : List (ℤ × (ℕ × ℕ))) (kind : CKind) (ts now : ℚ) :
    ∃ env, (_inc_counter cs kind ts now).2 = [COut.write env] :=
  ⟨_, rfl⟩

/-- C7: one collector step treats the intent buffer in exactly one of
three ways — untouched with no match acknowledgement; extended by one
entry created with `matched = false` (an `audio_playback` intent) with
no acknowledgement; or with exactly one previously-unmatched entry
flipped to `matched = true` together with exactly one match
acknowledgement.  A flag therefore goes false→true at most once and is
never reset, a matched record is skipped by every later scan
(`qualifies` requires `!matched`), and one intent confirms at most one
pose transition. -/
theorem intent_matched_at_most_once (s : CState) (now : ℚ) (m : Option J) :
    ((collectorStep s now m).1.recent_audio = s.recent_audio ∧
      (collectorStep s now m).2.countP isAck = 0) ∨
    (∃ e : Intent, e.matched = false ∧
      (collectorStep s now m).1.recent_audio = pushBounded s.recent_audio e ∧
      (collectorStep s now m).2.countP isAck = 0) ∨
    (∃ l1 a l2, s.recent_audio = l1 ++ a :: l2 ∧ a.matched = false ∧
      (collectorStep s now m).1.recent_audio
        = l1 ++ { a with matched := true } :: l2 ∧
      (collectorStep s now m).2.countP isAck = 1) := by
  rcases m with _ | data
  · exact .inl ⟨rfl, rfl⟩
  by_cases hdict : (data.isDict && data.getEqStr "type" "event") = true
  case neg =>
    left
    simp [collectorStep, hdict]
  case pos =>
  by_cases haud : ((data.get "event").getD .null).eqStr "audio_playback" = true
  case pos =>
    have hev : (data.get "event").getD .null = .str "audio_playback" :=
      (J.eqStr_iff _ _).mp haud
    right; left
    refine ⟨{ ts := data.getTs "timestamp" now,
              text := (data.getOr "payload" (.obj [])).getStr "text",
              filename :=
                if (data.getOr "payload" (.obj [])).getStr "filename" ≠ "" then
                  (data.getOr "payload" (.obj [])).getStr "filename"
                else (data.getOr "payload" (.obj [])).getStr "file",
              matched := false }, rfl, ?_, ?_⟩ <;>
    simp [collectorStep, hdict, hev]
  case neg =>
  by_cases hpose : ((data.get "event").getD .null).eqStr "pose_transition" = true
  case pos =>
    have hev : (data.get "event").getD .null = .str "pose_transition" :=
      (J.eqStr_iff _ _).mp hpose
    rcases hto : (data.getOr "payload" (.obj [])).get "to" with _ | j
    · left
      simp [collectorStep, hdict, hev, hto]
    rcases j with _ | b | q | toPose | el | fl
    · left; simp [collectorStep, hdict, hev, hto]
    · left; simp [collectorStep, hdict, hev, hto]
    · left; simp [collectorStep, hdict, hev, hto]
    case str =>
      by_cases hne : toPose ≠ ""
      case neg =>
        left
        simp [collectorStep, hdict, hev, hto, hne]
      case pos =>
        rcases markFirst_cases (qualifies (strLower toPose) (data.getTs "timestamp" now))
            s.recent_audio.reverse with ⟨hm, _⟩ | ⟨u, a, v, hlrev, hu, ha, hm⟩
        · left
          simp [collectorStep, hdict, hev, hto, hne, hm]
        · right; right
          obtain ⟨env, henv⟩ := _inc_counter_out s.daily_counters .success
            (data.getTs "timestamp" now) now
          have hbuf : s.recent_audio = v.reverse ++ a :: u.reverse := by
            have := congrArg List.reverse hlrev
            simpa [List.reverse_append] using this
          refine ⟨v.reverse, a, u.reverse, hbuf, qualifies_not_matched ha, ?_, ?_⟩
          · simp [collectorStep, hdict, hev, hto, hne, hm, List.reverse_append]
          · simp [collectorStep, hdict, hev, hto, hne, hm, henv]
    · left; simp [collectorStep, hdict, hev, hto]
    · left; simp [collectorStep, hdict, hev, hto]
  case neg =>
  by_cases htreat : ((data.get "event").getD .null).eqStr "treat_given" = true
  case pos =>
    have hev : (data.get "event").getD .null = .str "treat_given" :=
      (J.eqStr_iff _ _).mp htreat
    obtain ⟨env, henv⟩ := _inc_counter_out s.daily_counters .treat
      (data.getTs "timestamp" now) now
    left
    constructor
    · simp [collectorStep, hdict, hev]
    · simp [collectorStep, hdict, hev, henv]
  case neg =>
    left
    simp [collectorStep, hdict, haud, hpose, htreat]

end DogTrainer

namespace DogTrainer

/-- Dict update: the updated key now maps to the new value. -/
theorem lookup_countersSet_self (cs : List (ℤ × (ℕ × ℕ))) (k : ℤ) (v : ℕ × ℕ) :
    (countersSet cs k v).lookup k = some v := by
  induction cs with
  | nil => simp [countersSet, List.lookup]
  | cons p rest ih =>
      obtain ⟨k', v'⟩ := p
      by_cases h : k' = k
      · subst h
        simp [countersSet, List.lookup]
      · have hb : (k == k') = false := beq_eq_false_iff_ne.mpr (Ne.symm h)
        simp [countersSet, h, List.lookup, hb, ih]

/-- Dict update: every other key is untouched. -/
theorem lookup_countersSet_ne (cs : List (ℤ × (ℕ × ℕ))) (k D : ℤ) (v : ℕ × ℕ)
    (h : D ≠ k) : (countersSet cs k v).lookup D = cs.lookup D := by
  have hb : (D == k) = false := beq_eq_false_iff_ne.mpr h
  induction cs with
  | nil => simp [countersSet, List.lookup, hb]
  | cons p rest ih =>
      obtain ⟨k', v'⟩ := p
      by_cases h' : k' = k
      · subst h'
        simp [countersSet, List.lookup, hb]
      · simp [countersSet, h', List.lookup, ih]

/-- The effective timestamp is already its own falsy-fallback: the
`ts or time.time()` inside `_today_key` changes nothing when `ts` came
out of the envelope extraction (which itself falls back to `now`). -/
theorem getTs_if_zero (d : J) (k : String) (now : ℚ) :
    (if d.getTs k now = 0 then now else d.getTs k now) = d.getTs k now := by
  unfold J.getTs
  cases hg : d.get k with
  | none => simp [ite_self]
  | some v =>
      cases v <;> try simp [ite_self]
      case num q =>
        by_cases hq : q = 0
        · simp [hq, ite_self]
        · simp [hq]

/-- `_inc_counter` bumps exactly the day of its timestamp, in the
component of its kind. -/
theorem _inc_counter_counterAt (cs : List (ℤ × (ℕ × ℕ))) (kind : CKind)
    (ts now : ℚ) (D : ℤ) :
    counterAt (_inc_counter cs kind ts now).1 D
      = if D = dayKey (if ts = 0 then now else ts) then
          (match kind with
           | .treat => ((counterAt cs D).1 + 1, (counterAt cs D).2)
           | .success => ((counterAt cs D).1, (counterAt cs D).2 + 1))
        else counterAt cs D := by
  unfold _inc_counter counterAt
  by_cases h : D = dayKey (if ts = 0 then now else ts)
  · subst h
    rw [lookup_countersSet_self]
    cases kind <;> simp
  · rw [lookup_countersSet_ne _ _ _ _ h]
    simp [h]

/-- `_inc_counter`'s single output is the snapshot of the new pair at
the bumped day. -/
theorem _inc_counter_snd (cs : List (ℤ × (ℕ × ℕ))) (kind : CKind) (ts now : ℚ) :
    (_inc_counter cs kind ts now).2
      = [.write (dailyEnv (dayKey (if ts = 0 then now else ts))
          (counterAt (_inc_counter cs kind ts now).1
            (dayKey (if ts = 0 then now else ts))).1
          (counterAt (_inc_counter cs kind ts now).1
            (dayKey (if ts = 0 then now else ts))).2 now)] := by
  rw [_inc_counter_counterAt]
  simp only [if_pos rfl]
  unfold _inc_counter counterAt
  cases kind <;> rfl

@[simp] theorem isDailyOn_dailyEnv (D k : ℤ) (t u : ℕ) (now : ℚ) :
    isDailyOn D (.write (dailyEnv k t u now)) = decide (k = D) := by
  by_cases hkD : k = D
  · subst hkD
    simp [isDailyOn, dailyEnv, J.getEqStr, J.getOr, List.lookup]
  · have hb : ((k : ℚ) == (D : ℚ)) = false :=
      beq_eq_false_iff_ne.mpr fun hc => hkD (by exact_mod_cast hc)
    simp [isDailyOn, dailyEnv, J.getEqStr, J.getOr, List.lookup, hb, hkD]

@[simp] theorem isDailyOn_successEnv (D : ℤ) (a : Intent) (t : String) (q : ℚ) :
    isDailyOn D (.write (successEnv a t q)) = false := by
  simp [isDailyOn, successEnv, J.getEqStr, List.lookup]

@[simp] theorem isDailyOn_wsSend (D : ℤ) (msg : J) :
    isDailyOn D (.wsSend msg) = false := rfl

@[simp] theorem isDailyOn_log (D : ℤ) (s : String) :
    isDailyOn D (.log s) = false := rfl

@[simp] theorem isAckOnDay_write (D : ℤ) (env : J) :
    isAckOnDay D (.write env) = false := rfl

@[simp] theorem isAckOnDay_log (D : ℤ) (s : String) :
    isAckOnDay D (.log s) = false := rfl

@[simp] theorem isAckOnDay_ackMsg (D : ℤ) (a : Intent) (t : String) (q : ℚ) :
    isAckOnDay D (.wsSend (ackMsg a t q)) = (dayKey q == D) := by
  simp [isAckOnDay, ackMsg, J.getEqStr, J.getOr, List.lookup]

@[simp] theorem payloadNum_dailyEnv_treat (k : ℤ) (t u : ℕ) (now : ℚ) :
    payloadNum (dailyEnv k t u now) "treat_count" = some (t : ℚ) := rfl

@[simp] theorem payloadNum_dailyEnv_success (k : ℤ) (t u : ℕ) (now : ℚ) :
    payloadNum (dailyEnv k t u now) "success_count" = some (u : ℚ) := rfl

end DogTrainer

namespace DogTrainer

/-- One collector step changes the counter pair of day `D` by exactly
the treat-event indicator of the incoming message and the number of
match acknowledgements it emits (each acknowledged match increments
the success count of the day of its pose timestamp). -/
theorem collectorStep_counterAt (s : CState) (now : ℚ) (m : Option J) (D : ℤ) :
    counterAt (collectorStep s now m).1.daily_counters D
      = ((counterAt s.daily_counters D).1
           + (if isTreatOnDay D (now, m) then 1 else 0),
         (counterAt s.daily_counters D).2
           + (collectorStep s now m).2.countP (isAckOnDay D)) := by
  rcases m with _ | data
  · simp [collectorStep, isTreatOnDay]
  by_cases hdict : (data.isDict && data.getEqStr "type" "event") = true
  case neg =>
    have hd : (data.isDict && data.getEqStr "type" "event") = false := by
      simpa using hdict
    simp [collectorStep, hdict, isTreatOnDay, hd]
  case pos =>
  by_cases haud : ((data.get "event").getD .null).eqStr "audio_playback" = true
  case pos =>
    have hev : (data.get "event").getD .null = .str "audio_playback" :=
      (J.eqStr_iff _ _).mp haud
    simp [collectorStep, hdict, hev, isTreatOnDay]
  case neg =>
  by_cases hpose : ((data.get "event").getD .null).eqStr "pose_transition" = true
  case pos =>
    have hev : (data.get "event").getD .null = .str "pose_transition" :=
      (J.eqStr_iff _ _).mp hpose
    rcases hto : (data.getOr "payload" (.obj [])).get "to" with _ | j
    · simp [collectorStep, hdict, hev, hto, isTreatOnDay]
    rcases j with _ | b | q | toPose | el | fl
    · simp [collectorStep, hdict, hev, hto, isTreatOnDay]
    · simp [collectorStep, hdict, hev, hto, isTreatOnDay]
    · simp [collectorStep, hdict, hev, hto, isTreatOnDay]
    case str =>
      by_cases hne : toPose ≠ ""
      case neg =>
        simp [collectorStep, hdict, hev, hto, hne, isTreatOnDay]
      case pos =>
        rcases markFirst_cases (qualifies (strLower toPose) (data.getTs "timestamp" now))
            s.recent_audio.reverse with ⟨hm, _⟩ | ⟨u, a, v, hlrev, hu, ha, hm⟩
        · simp [collectorStep, hdict, hev, hto, hne, hm, isTreatOnDay]
        · obtain ⟨env, henv⟩ := _inc_counter_out s.daily_counters .success
            (data.getTs "timestamp" now) now
          have hinc := _inc_counter_counterAt s.daily_counters .success
            (data.getTs "timestamp" now) now D
          rw [getTs_if_zero] at hinc
          by_cases hD : D = dayKey (data.getTs "timestamp" now)
          · subst hD
            simp [collectorStep, hdict, hev, hto, hne, hm, henv, isTreatOnDay,
              hinc]
          · have hbeq : (dayKey (data.getTs "timestamp" now) == D) = false :=
              beq_eq_false_iff_ne.mpr (Ne.symm hD)
            simp [collectorStep, hdict, hev, hto, hne, hm, henv, isTreatOnDay,
              hinc, hD, hbeq]
    · simp [collectorStep, hdict, hev, hto, isTreatOnDay]
    · simp [collectorStep, hdict, hev, hto, isTreatOnDay]
  case neg =>
  by_cases htreat : ((data.get "event").getD .null).eqStr "treat_given" = true
  case pos =>
    have hev : (data.get "event").getD .null = .str "treat_given" :=
      (J.eqStr_iff _ _).mp htreat
    obtain ⟨env, henv⟩ := _inc_counter_out s.daily_counters .treat
      (data.getTs "timestamp" now) now
    have hinc := _inc_counter_counterAt s.daily_counters .treat
      (data.getTs "timestamp" now) now D
    rw [getTs_if_zero] at hinc
    by_cases hD : D = dayKey (data.getTs "timestamp" now)
    · subst hD
      simp [collectorStep, hdict, hev, henv, isTreatOnDay, hinc]
    · have hbeq : (dayKey (data.getTs "timestamp" now) == D) = false :=
        beq_eq_false_iff_ne.mpr (Ne.symm hD)
      simp [collectorStep, hdict, hev, henv, isTreatOnDay, hinc, hD, hbeq]
  case neg =>
    simp [collectorStep, hdict, haud, hpose, htreat, isTreatOnDay]

end DogTrainer

namespace DogTrainer

/-- One collector step either writes no `daily_counters` snapshot for
day `D` and leaves `D`'s pair unchanged, or writes exactly one
snapshot for `D` carrying the updated pair.  (The hypothesis excludes
an incoming message that is itself a `daily_counters` envelope — the
collector never receives one, as it writes its snapshots straight to
the store.) -/
theorem collectorStep_daily_writes (s : CState) (now : ℚ) (m : Option J) (D : ℤ)
    (hnd : isDailyCountersMsg (now, m) = false) :
    ((collectorStep s now m).2.filter (isDailyOn D) = [] ∧
      counterAt (collectorStep s now m).1.daily_counters D
        = counterAt s.daily_counters D) ∨
    (∃ t u : ℕ, (collectorStep s now m).2.filter (isDailyOn D)
        = [.write (dailyEnv D t u now)] ∧
      counterAt (collectorStep s now m).1.daily_counters D = (t, u)) := by
  rcases m with _ | data
  · left; exact ⟨rfl, rfl⟩
  by_cases hdict : (data.isDict && data.getEqStr "type" "event") = true
  case neg =>
    have hd : (data.isDict && data.getEqStr "type" "event") = false := by
      simpa using hdict
    have hstep : collectorStep s now (some data)
        = (s, [.write (.obj [("type", .str "event"), ("event", .str "status"),
                            ("timestamp", .num now), ("payload", data)]),
               .log "[COLLECTOR] Wrote status ->"]) := by
      simp [collectorStep, hd]
    rw [hstep]
    left
    exact ⟨by simp [isDailyOn, J.getEqStr, List.lookup], rfl⟩
  case pos =>
  have hdaily : ((data.get "event").getD .null).eqStr "daily_counters" = false := by
    simpa [isDailyCountersMsg, hdict] using hnd
  have hwd : isDailyOn D (.write data) = false := by
    simp [isDailyOn, J.getEqStr_eq, hdaily]
  by_cases haud : ((data.get "event").getD .null).eqStr "audio_playback" = true
  case pos =>
    have hev : (data.get "event").getD .null = .str "audio_playback" :=
      (J.eqStr_iff _ _).mp haud
    left
    constructor
    · simp [collectorStep, hdict, hev, hwd]
    · simp [collectorStep, hdict, hev]
  case neg =>
  by_cases hpose : ((data.get "event").getD .null).eqStr "pose_transition" = true
  case pos =>
    have hev : (data.get "event").getD .null = .str "pose_transition" :=
      (J.eqStr_iff _ _).mp hpose
    rcases hto : (data.getOr "payload" (.obj [])).get "to" with _ | j
    · left; exact ⟨by simp [collectorStep, hdict, hev, hto, hwd],
        by simp [collectorStep, hdict, hev, hto]⟩
    rcases j with _ | b | q | toPose | el | fl
    · left; exact ⟨by simp [collectorStep, hdict, hev, hto, hwd],
        by simp [collectorStep, hdict, hev, hto]⟩
    · left; exact ⟨by simp [collectorStep, hdict, hev, hto, hwd],
        by simp [collectorStep, hdict, hev, hto]⟩
    · left; exact ⟨by simp [collectorStep, hdict, hev, hto, hwd],
        by simp [collectorStep, hdict, hev, hto]⟩
    case str =>
      by_cases hne : toPose ≠ ""
      case neg =>
        left
        exact ⟨by simp [collectorStep, hdict, hev, hto, hne, hwd],
          by simp [collectorStep, hdict, hev, hto, hne]⟩
      case pos =>
        rcases markFirst_cases (qualifies (strLower toPose) (data.getTs "timestamp" now))
            s.recent_audio.reverse with ⟨hm, _⟩ | ⟨u', a, v, hlrev, hu, ha, hm⟩
        · left
          exact ⟨by simp [collectorStep, hdict, hev, hto, hne, hm, hwd],
            by simp [collectorStep, hdict, hev, hto, hne, hm]⟩
        · have hsnd := _inc_counter_snd s.daily_counters .success
            (data.getTs "timestamp" now) now
          have hinc := _inc_counter_counterAt s.daily_counters .success
            (data.getTs "timestamp" now) now D
          rw [getTs_if_zero] at hinc
          rw [getTs_if_zero] at hsnd
          by_cases hD : D = dayKey (data.getTs "timestamp" now)
          · subst hD
            right
            refine ⟨(counterAt (_inc_counter s.daily_counters .success
                  (data.getTs "timestamp" now) now).1
                  (dayKey (data.getTs "timestamp" now))).1,
                (counterAt (_inc_counter s.daily_counters .success
                  (data.getTs "timestamp" now) now).1
                  (dayKey (data.getTs "timestamp" now))).2, ?_, ?_⟩
            · simp [collectorStep, hdict, hev, hto, hne, hm, hsnd, hwd]
            · simp [collectorStep, hdict, hev, hto, hne, hm, hinc]
          · have hdec : decide (dayKey (data.getTs "timestamp" now) = D) = false :=
              decide_eq_false (Ne.symm hD)
            left
            exact ⟨by simp [collectorStep, hdict, hev, hto, hne, hm, hsnd, hwd, hdec],
              by simp [collectorStep, hdict, hev, hto, hne, hm, hinc, hD]⟩
    · left; exact ⟨by simp [collectorStep, hdict, hev, hto, hwd],
        by simp [collectorStep, hdict, hev, hto]⟩
    · left; exact ⟨by simp [collectorStep, hdict, hev, hto, hwd],
        by simp [collectorStep, hdict, hev, hto]⟩
  case neg =>
  by_cases htreat : ((data.get "event").getD .null).eqStr "treat_given" = true
  case pos =>
    have hev : (data.get "event").getD .null = .str "treat_given" :=
      (J.eqStr_iff _ _).mp htreat
    have hsnd := _inc_counter_snd s.daily_counters .treat
      (data.getTs "timestamp" now) now
    have hinc := _inc_counter_counterAt s.daily_counters .treat
      (data.getTs "timestamp" now) now D
    rw [getTs_if_zero] at hinc
    rw [getTs_if_zero] at hsnd
    by_cases hD : D = dayKey (data.getTs "timestamp" now)
    · subst hD
      right
      refine ⟨(counterAt (_inc_counter s.daily_counters .treat
            (data.getTs "timestamp" now) now).1
            (dayKey (data.getTs "timestamp" now))).1,
          (counterAt (_inc_counter s.daily_counters .treat
            (data.getTs "timestamp" now) now).1
            (dayKey (data.getTs "timestamp" now))).2, ?_, ?_⟩
      · simp [collectorStep, hdict, hev, hsnd, hwd]
      · simp [collectorStep, hdict, hev, hinc]
    · have hdec : decide (dayKey (data.getTs "timestamp" now) = D) = false :=
        decide_eq_false (Ne.symm hD)
      left
      exact ⟨by simp [collectorStep, hdict, hev, hsnd, hwd, hdec],
        by simp [collectorStep, hdict, hev, hinc, hD]⟩
  case neg =>
    left
    exact ⟨by simp [collectorStep, hdict, haud, hpose, htreat, hwd],
      by simp [collectorStep, hdict, haud, hpose, htreat]⟩

end DogTrainer

namespace DogTrainer

/-- A run over a concatenation threads the state and concatenates the
outputs. -/
theorem collectorRun_append (s : CState) (I₁ I₂ : List (ℚ × Option J)) :
    collectorRun s (I₁ ++ I₂)
      = ((collectorRun (collectorRun s I₁).1 I₂).1,
         (collectorRun s I₁).2 ++ (collectorRun (collectorRun s I₁).1 I₂).2) := by
  induction I₁ generalizing s with
  | nil => simp [collectorRun]
  | cons p rest ih =>
      obtain ⟨now, m⟩ := p
      simp [collectorRun, ih]

/-- Over a whole run, day `D`'s counter pair advances by exactly the
number of treat events in the input and of match acknowledgements in
the output. -/
theorem collectorRun_counterAt (s : CState) (I : List (ℚ × Option J)) (D : ℤ) :
    counterAt (collectorRun s I).1.daily_counters D
      = ((counterAt s.daily_counters D).1 + I.countP (isTreatOnDay D),
         (counterAt s.daily_counters D).2
           + (collectorRun s I).2.countP (isAckOnDay D)) := by
  induction I generalizing s with
  | nil => simp [collectorRun]
  | cons p rest ih =>
      obtain ⟨now, m⟩ := p
      have hstep := collectorStep_counterAt s now m D
      have hrest := ih (collectorStep s now m).1
      simp only [collectorRun, List.countP_cons, List.countP_append]
      rw [hrest, hstep]
      simp only [Prod.mk.injEq]
      constructor <;> ring

/-- Over a run whose inputs are not themselves `daily_counters`
envelopes, either no snapshot for day `D` was written and `D`'s pair
is unchanged, or the last snapshot written for `D` carries exactly the
final pair. -/
theorem collectorRun_lastDaily (s : CState) (I : List (ℚ × Option J)) (D : ℤ)
    (hclean : ∀ p ∈ I, isDailyCountersMsg p = false) :
    ((collectorRun s I).2.filter (isDailyOn D) = [] ∧
      counterAt (collectorRun s I).1.daily_counters D
        = counterAt s.daily_counters D) ∨
    (∃ t u now' pre, (collectorRun s I).2.filter (isDailyOn D)
        = pre ++ [.write (dailyEnv D t u now')] ∧
      counterAt (collectorRun s I).1.daily_counters D = (t, u)) := by
  induction I generalizing s with
  | nil => left; exact ⟨by simp [collectorRun], by simp [collectorRun]⟩
  | cons p rest ih =>
      obtain ⟨now, m⟩ := p
      have h1 := collectorStep_daily_writes s now m D (hclean _ (List.mem_cons_self _ _))
      have h2 := ih (collectorStep s now m).1
        fun q hq => hclean q (List.mem_cons_of_mem _ hq)
      simp only [collectorRun, List.filter_append]
      rcases h2 with ⟨hl2, hc2⟩ | ⟨t, u, now', pre, hl2, hc2⟩
      · rcases h1 with ⟨hl1, hc1⟩ | ⟨t, u, hl1, hc1⟩
        · left
          rw [hl1, hl2, hc2, hc1]
          exact ⟨rfl, rfl⟩
        · right
          exact ⟨t, u, now, [], by rw [hl1, hl2]; simp, hc2.trans hc1⟩
      · right
        exact ⟨t, u, now',
          (collectorStep s now m).2.filter (isDailyOn D) ++ pre,
          by rw [hl2, List.append_assoc], hc2⟩

/-- C5: for every input sequence (none of which is itself a
`daily_counters` envelope — the collector never receives one, since
its snapshots go straight to the durable store) and every UTC day `D`:
the final in-memory pair for `D` equals (number of `treat_given`
events whose timestamp falls on `D`, number of match acknowledgements
— one per emitted `command_success` — whose pose timestamp falls on
`D`); the latest `daily_counters` snapshot written for `D`, when one
exists, is exactly the full current-day snapshot carrying those two
counts; none exists only when both counts are zero; and the pair for
`D` is monotonically non-decreasing as further input is processed
within the same process lifetime. -/
theorem daily_counters_correct (I : List (ℚ × Option J))
    (hclean : ∀ p ∈ I, isDailyCountersMsg p = false) (D : ℤ) :
    counterAt (collectorRun CState.empty I).1.daily_counters D
      = (I.countP (isTreatOnDay D),
         (collectorRun CState.empty I).2.countP (isAckOnDay D)) ∧
    (∀ o ∈ ((collectorRun CState.empty I).2.filter (isDailyOn D)).getLast?,
      ∃ now', o = COut.write (dailyEnv D (I.countP (isTreatOnDay D))
        ((collectorRun CState.empty I).2.countP (isAckOnDay D)) now')) ∧
    (((collectorRun CState.empty I).2.filter (isDailyOn D)).getLast? = none →
      I.countP (isTreatOnDay D) = 0 ∧
      (collectorRun CState.empty I).2.countP (isAckOnDay D) = 0) ∧
    (∀ I₂ : List (ℚ × Option J),
      (counterAt (collectorRun CState.empty I).1.daily_counters D).1
        ≤ (counterAt (collectorRun CState.empty (I ++ I₂)).1.daily_counters D).1 ∧
      (counterAt (collectorRun CState.empty I).1.daily_counters D).2
        ≤ (counterAt (collectorRun CState.empty (I ++ I₂)).1.daily_counters D).2) := by
  have hzero : counterAt CState.empty.daily_counters D = (0, 0) := rfl
  have hcnt := collectorRun_counterAt CState.empty I D
  rw [hzero] at hcnt
  simp only [Nat.zero_add] at hcnt
  have hlast := collectorRun_lastDaily CState.empty I D hclean
  refine ⟨hcnt, ?_, ?_, ?_⟩
  · intro o ho
    rcases hlast with ⟨hl, _⟩ | ⟨t, u, now', pre, hl, hc⟩
    · rw [hl] at ho
      simp at ho
    · rw [hl, List.getLast?_concat] at ho
      have htu : (t, u) = (I.countP (isTreatOnDay D),
          (collectorRun CState.empty I).2.countP (isAckOnDay D)) :=
        hc.symm.trans hcnt
      have ht : t = I.countP (isTreatOnDay D) := congrArg Prod.fst htu
      have hu : u = (collectorRun CState.empty I).2.countP (isAckOnDay D) :=
        congrArg Prod.snd htu
      refine ⟨now', ?_⟩
      have ho' : o = COut.write (dailyEnv D t u now') := by
        have := ho
        simp only [Option.mem_def, Option.some.injEq] at this
        exact this.symm
      rw [ho', ht, hu]
  · intro hnone
    rcases hlast with ⟨hl, hc0⟩ | ⟨t, u, now', pre, hl, hc⟩
    · have h00 : (I.countP (isTreatOnDay D),
          (collectorRun CState.empty I).2.countP (isAckOnDay D)) = ((0 : ℕ), (0 : ℕ)) :=
        hcnt.symm.trans (hc0.trans hzero)
      exact ⟨congrArg Prod.fst h00, congrArg Prod.snd h00⟩
    · rw [hl, List.getLast?_concat] at hnone
      exact absurd hnone (by simp)
  · intro I₂
    have happ := collectorRun_append CState.empty I I₂
    have h2 := collectorRun_counterAt CState.empty (I ++ I₂) D
    rw [hzero] at h2
    simp only [Nat.zero_add] at h2
    rw [hcnt, h2]
    constructor
    · simp [List.countP_append]
    · rw [happ]
      simp [List.countP_append]

end DogTrainer

namespace DogTrainer

/-- C5 (witness): a single `treat_given` event at ts 100 (UTC epoch
day 0) — the final pair for day 0 equals the counted totals. -/
theorem daily_counters_correct_witness :
    (∀ p ∈ [((100 : ℚ), some (J.obj [("type", J.str "event"),
          ("event", J.str "treat_given"), ("timestamp", J.num 100),
          ("payload", J.obj [("reason", J.str "auto")])]))],
        isDailyCountersMsg p = false) ∧
    counterAt (collectorRun CState.empty [((100 : ℚ), some (J.obj
          [("type", J.str "event"), ("event", J.str "treat_given"),
           ("timestamp", J.num 100),
           ("payload", J.obj [("reason", J.str "auto")])]))]).1.daily_counters 0
      = ([((100 : ℚ), some (J.obj [("type", J.str "event"),
            ("event", J.str "treat_given"), ("timestamp", J.num 100),
            ("payload", J.obj [("reason", J.str "auto")])]))].countP (isTreatOnDay 0),
         (collectorRun CState.empty [((100 : ℚ), some (J.obj
            [("type", J.str "event"), ("event", J.str "treat_given"),
             ("timestamp", J.num 100),
             ("payload", J.obj [("reason", J.str "auto")])]))]).2.countP
           (isAckOnDay 0)) := by
  have hc : ∀ p ∈ [((100 : ℚ), some (J.obj [("type", J.str "event"),
        ("event", J.str "treat_given"), ("timestamp", J.num 100),
        ("payload", J.obj [("reason", J.str "auto")])]))],
      isDailyCountersMsg p = false := by
    intro p hp
    rcases List.mem_singleton.mp hp with rfl
    rfl
  exact ⟨hc, (daily_counters_correct _ hc 0).1⟩

end DogTrainer
